import Mathlib

/-!
# Verification of the graphshift-dev/discovery multi-repository analysis scheduler

A shallow embedding of `src/services/analysis_service.py` and
`src/services/base_analyzer.py`.  Findings are opaque to the core
(the spec calls them uninterpreted records), so every definition is
parametrised by the finding type `F`.  External collaborators (the SCM
listing service, the clone service, the filesystem, the external JAR
engine) are modelled as abstract function parameters, exactly along the
collaborator contracts the code consumes.
-/

set_option autoImplicit false

namespace Discovery

/-- Python's `str.startswith`, evaluated over the character lists so that
it computes inside the kernel. -/
def strStartsWith (s pre : String) : Bool :=
  pre.data.isPrefixOf s.data

/-- One candidate repository entering the scheduler, with the two fields
`analyze_single_item` extracts from it (`repo_name`/`item.name` and
`local_path`/`str(item)`). -/
structure RepoItem where
  name : String
  path : String
deriving DecidableEq, Repr

/-- One entry of `clone_service.clone_organization_repositories`' result list:
a dict with `repo_name`, `local_path` and a `success` flag. -/
structure CloneResult where
  repo_name : String
  local_path : String
  success : Bool
deriving DecidableEq, Repr

/-- The raw JSON value `BaseAnalyzer.analyze_directory` loads from the JAR's
output file: either a bare list of findings, or a dict that may or may not
carry a `findings` key (plus possibly other keys, which only matter for
Python truthiness). -/
inductive RawResult (F : Type)
  | ofList (findings : List F)
  | ofDict (findings : Option (List F)) (extraKeys : Bool)
deriving DecidableEq, Repr

/-- Python truthiness of the raw result (`if not raw_result` in
`_base_repo_analyzer`): a list is truthy iff non-empty, a dict is truthy
iff it has at least one key. -/
def RawResult.truthy {F : Type} : RawResult F → Bool
  | .ofList fs => !fs.isEmpty
  | .ofDict fs extra => fs.isSome || extra

/-- The findings `_base_repo_analyzer` normalises out of the raw result:
the list itself, or `raw_result.get('findings', [])` for a dict. -/
def RawResult.findingsOf {F : Type} : RawResult F → List F
  | .ofList fs => fs
  | .ofDict fs _ => fs.getD []

/-- The external analysis engine as consumed through
`BaseAnalyzer.analyze_directory`: given a local directory path, a target
JDK version and a scope, it yields the raw JSON or `none` on failure
(`analyze_directory` catches all its own exceptions and returns `None`). -/
def Engine (F : Type) : Type := String → String → String → Option (RawResult F)

/-- Per-repository analysis outcome, the dict built by `_base_repo_analyzer`. -/
structure Outcome (F : Type) where
  repository : String
  findings : List F
  total_issues : Nat
deriving DecidableEq, Repr

/-- Model of `AnalysisService._base_repo_analyzer`: run the engine on the directory,
raise (modelled as `Except.error`) when the raw result is missing or falsy,
otherwise normalise the findings and build the outcome dict. -/
def baseRepoAnalyzer {F : Type} (engine : Engine F)
    (local_path repo_name to_version scope : String) : Except String (Outcome F) :=
  match engine local_path to_version scope with
  | none => .error ("JAR analysis failed for " ++ repo_name)
  | some raw =>
    if raw.truthy then
      .ok { repository := repo_name
            findings := raw.findingsOf
            total_issues := raw.findingsOf.length }
    else
      .error ("JAR analysis failed for " ++ repo_name)

/-- The per-item task body `analyze_single_item` inside
`_parallel_repo_analysis`: it runs `_base_repo_analyzer` and catches every
exception, turning a failure into `None`. -/
def analyzeSingleItem {F : Type} (engine : Engine F) (to_version scope : String)
    (item : RepoItem) : Option (Outcome F) :=
  (baseRepoAnalyzer engine item.path item.name to_version scope).toOption

/-- Lines 309-314 of `_parallel_repo_analysis`: drop failed (`None`) results,
keep the successful outcomes in the order `asyncio.gather` returned them
(which is submission order). -/
def filterSuccessful {F : Type} (results : List (Option (Outcome F))) : List (Outcome F) :=
  results.filterMap id

/-- Model of `AnalysisService._parallel_repo_analysis` as the function it computes:
one task per item in submission order, gather in submission order, then
filter to the successful outcomes. -/
def parallelRepoAnalysis {F : Type} (engine : Engine F) (to_version scope : String)
    (items : List RepoItem) : List (Outcome F) :=
  filterSuccessful (items.map (analyzeSingleItem engine to_version scope))

/-- One immediate child of the organisation directory, as seen by
`_discover_local_repos`: its name, whether it is a directory, and how many
`*.java` files a recursive scan (`rglob`) finds under it. -/
structure DirEntry where
  name : String
  isDir : Bool
  javaFileCount : Nat
deriving DecidableEq, Repr

/-- The qualification test of `_discover_local_repos`: a non-hidden
directory whose recursive scan finds at least one Java file. -/
def qualifies (e : DirEntry) : Bool :=
  e.isDir && !(strStartsWith e.name ".") && decide (0 < e.javaFileCount)

/-- The loop of `_discover_local_repos`, with its break placed after the
append (`if len(repo_dirs) >= max_repos: break`). -/
def discoverLoop (entries : List DirEntry) (max_repos : Nat)
    (repo_dirs : List DirEntry) : List DirEntry :=
  match entries with
  | [] => repo_dirs
  | e :: rest =>
    if qualifies e then
      let repo_dirs' := repo_dirs ++ [e]
      if max_repos ≤ repo_dirs'.length then repo_dirs'
      else discoverLoop rest max_repos repo_dirs'
    else discoverLoop rest max_repos repo_dirs

/-- Model of `AnalysisService._discover_local_repos`: iterate the children of the
organisation directory in filesystem order, collecting qualifying entries,
stopping as soon as `max_repos` have been collected. -/
def discoverLocalRepos (entries : List DirEntry) (max_repos : Nat) : List DirEntry :=
  discoverLoop entries max_repos []

/-- The analyzer output artifact name built at line 78 of
`base_analyzer.py`: `temp_analysis_{target_jdk}_{scope}.json`. -/
def outputFileName (target_jdk scope : String) : String :=
  "temp_analysis_" ++ target_jdk ++ "_" ++ scope ++ ".json"

/-- The full path `analyze_directory` reads (and unlinks) after the JAR
exits: `Path('oss/outputs') / output_file`.  It is computed per invocation
from the invocation's arguments; note that the analysed directory plays no
role in it. -/
def analyzerOutputPath (directory_path target_jdk scope : String) : String :=
  let _ := directory_path
  "oss/outputs/" ++ outputFileName target_jdk scope

/-- The SCM + clone collaborators consumed by
`_discover_and_clone_remote_repos`, modelled along the contracts in the
spec's §6: `list_org_repos` yields `(repos, error)`, `filter_java_repos`
filters, `clone_organization_repositories` yields clone-result dicts. -/
structure RemoteEnv where
  listResult : Option (List String)
  listError : Option String
  filterJava : List String → List String
  cloneMany : List String → List CloneResult

/-- Model of `AnalysisService._discover_and_clone_remote_repos`: raise on a listing
error or an empty listing, filter to Java repositories and cap at
`max_repos`, raise if none remain, clone, and return only the clone
results whose `success` flag is set. -/
def discoverAndCloneRemoteRepos (remote : RemoteEnv) (org_name : String)
    (max_repos : Nat) : Except String (List CloneResult) :=
  if remote.listError.isSome || (remote.listResult.getD []).isEmpty then
    .error ("Failed to discover repositories: " ++ remote.listError.getD "None")
  else
    let java_repos := (remote.filterJava (remote.listResult.getD [])).take max_repos
    if java_repos.isEmpty then
      .error ("No Java repositories found in " ++ org_name)
    else
      (remote.cloneMany java_repos).filter (fun c => c.success) |> .ok

/-- The aggregate dict `_analyze_organization` returns. -/
structure OrgResult (F : Type) where
  organization : String
  repositories : List (Outcome F)
  total_issues : Nat
  repos_analyzed : Nat
  cleanup_paths : Option (List String)
deriving DecidableEq, Repr

/-- The coarse-grained events of one organisation run, in the order the
`async` control flow of `_analyze_organization` awaits them: the scheduler
call (`_parallel_repo_analysis`, lines 168-170, which itself joins on all
tasks before returning), the cleanup call (`_cleanup_cloned_repos`, lines
173-174), and the aggregation (lines 177-186). -/
inductive OrgEvent
  | schedule (items : List RepoItem)
  | cleanup (items : List RepoItem)
  | aggregate
deriving DecidableEq, Repr

/-- The item `analyze_single_item` sees for a clone-result dict
(`item['repo_name']`, `item['local_path']`). -/
def cloneToItem (c : CloneResult) : RepoItem :=
  { name := c.repo_name, path := c.local_path }

/-- The shared tail of `_analyze_organization` from line 161 on: fail if no
repo items, run the scheduler, clean up when remote and not retaining, then
aggregate.  Returns the result (or the raised error) together with the
event trace. -/
def orgRunTail {F : Type} (engine : Engine F) (org_name to_version scope : String)
    (is_local keep_clones : Bool) (repo_items : List RepoItem)
    (cleanup_paths : Option (List String)) :
    Except String (OrgResult F) × List OrgEvent :=
  if repo_items.isEmpty then
    (.error ("No Java repositories found in " ++ org_name), [])
  else
    let analysis_results := parallelRepoAnalysis engine to_version scope repo_items
    let cleanupEvents := if !is_local && !keep_clones then [OrgEvent.cleanup repo_items] else []
    let total_issues := (analysis_results.map (fun r => r.findings.length)).sum
    (.ok { organization := org_name
           repositories := analysis_results
           total_issues := total_issues
           repos_analyzed := analysis_results.length
           cleanup_paths := cleanup_paths },
     [OrgEvent.schedule repo_items] ++ cleanupEvents ++ [OrgEvent.aggregate])

/-- Model of `AnalysisService._analyze_organization`.  Here `is_local` models
`org_path.exists() and org_path.is_dir()`; `localEntries` is what
`org_path.iterdir()` yields in the local case; the remote collaborators
are abstracted by `remote`.  Local items enter the scheduler as
`(item.name, str(item))`; we carry the child's name as both fields of the
`RepoItem` (the path is the name resolved under the organisation
directory, which the engine abstraction absorbs). -/
def analyzeOrganization {F : Type} (engine : Engine F) (remote : RemoteEnv)
    (is_local : Bool) (localEntries : List DirEntry)
    (org_name to_version scope : String) (max_repos : Nat) (keep_clones : Bool) :
    Except String (OrgResult F) × List OrgEvent :=
  if is_local then
    let repo_items := (discoverLocalRepos localEntries max_repos).map
      (fun e => { name := e.name, path := org_name ++ "/" ++ e.name : RepoItem })
    orgRunTail engine org_name to_version scope true keep_clones repo_items none
  else
    match discoverAndCloneRemoteRepos remote org_name max_repos with
    | .error e => (.error e, [])
    | .ok clone_successes =>
      let cleanup_paths :=
        if keep_clones then
          some ((clone_successes.filter (fun c => c.success)).map (fun c => c.local_path))
        else none
      let repo_items := clone_successes.map cloneToItem
      orgRunTail engine org_name to_version scope false keep_clones repo_items cleanup_paths

/-- The result dict of `_analyze_single_repo`. -/
structure SingleResult (F : Type) where
  repository : String
  findings : List F
  total_issues : Nat
  repos_analyzed : Nat
  cleanup_path : Option String
deriving DecidableEq, Repr

/-- Model of `AnalysisService._is_local_path`: a known URL/SCM prefix is remote,
otherwise the string is local iff it resolves to an existing path
(resolution failures are already folded into `pathExists` returning
`false`, matching the `except (OSError, ValueError): return False`). -/
def isLocalPath (pathExists : String → Bool) (p : String) : Bool :=
  if strStartsWith p "http://" || strStartsWith p "https://" || strStartsWith p "git@" then
    false
  else
    pathExists p

/-- Model of `AnalysisService._extract_repo_name`, specialised to the URL case used
for cloned single repositories. -/
def extractRepoName (url : String) : String :=
  ((url.splitOn "/").getLastD "").replace ".git" ""

/-- Model of `AnalysisService._analyze_single_repo`.  Here `pathExists` and `baseName`
model the filesystem (`Path(p).resolve().exists()` and
`Path(p).resolve().name`); `cloneSingle` models
`clone_service.clone_single_repository`. -/
def analyzeSingleRepo {F : Type} (engine : Engine F)
    (pathExists : String → Bool) (baseName : String → String)
    (cloneSingle : String → Option String)
    (repo_path to_version scope : String) : Except String (SingleResult F) :=
  let is_local := isLocalPath pathExists repo_path
  let step : Except String (String × String × Option String) :=
    if is_local then
      .ok (repo_path, baseName repo_path, none)
    else
      match cloneSingle repo_path with
      | none => .error ("Failed to clone repository: " ++ repo_path)
      | some p => .ok (p, extractRepoName repo_path, some p)
  match step with
  | .error e => .error e
  | .ok (local_path, repo_name, cleanup_path) =>
    match baseRepoAnalyzer engine local_path repo_name to_version scope with
    | .error e => .error e
    | .ok r =>
      .ok { repository := r.repository
            findings := r.findings
            total_issues := r.total_issues
            repos_analyzed := 1
            cleanup_path := cleanup_path }

/-- The value `run_analysis` hands back: single-repo dict or organisation
dict. -/
inductive AnalysisResult (F : Type)
  | single (r : SingleResult F)
  | org (r : OrgResult F)
deriving DecidableEq, Repr

/-- The dispatch inside `run_analysis`'s `try` block: single repo when
`repo_path` is given, organisation when `org_name` is given, otherwise the
`ValueError` at line 61. -/
def runAnalysisDispatch {F : Type} (engine : Engine F) (remote : RemoteEnv)
    (pathExists : String → Bool) (baseName : String → String)
    (cloneSingle : String → Option String)
    (is_local_org : Bool) (localEntries : List DirEntry)
    (repo_path org_name : Option String) (to_version scope : String)
    (max_repos : Nat) (keep_clones : Bool) : Except String (AnalysisResult F) :=
  match repo_path with
  | some rp =>
    (analyzeSingleRepo engine pathExists baseName cloneSingle rp to_version scope).map .single
  | none =>
    match org_name with
    | some og =>
      (analyzeOrganization engine remote is_local_org localEntries og to_version scope
        max_repos keep_clones).1.map .org
    | none => .error "Must provide either repo_path or org_name"

/-- Model of `AnalysisService.run_analysis`: the dispatch wrapped in the
`try/except` of lines 48-65, which logs and returns `None` on every
exception. -/
def run_analysis {F : Type} (engine : Engine F) (remote : RemoteEnv)
    (pathExists : String → Bool) (baseName : String → String)
    (cloneSingle : String → Option String)
    (is_local_org : Bool) (localEntries : List DirEntry)
    (repo_path org_name : Option String) (to_version scope : String)
    (max_repos : Nat) (keep_clones : Bool) : Option (AnalysisResult F) :=
  match runAnalysisDispatch engine remote pathExists baseName cloneSingle
      is_local_org localEntries repo_path org_name to_version scope
      max_repos keep_clones with
  | .ok r => some r
  | .error _ => none

/-- The `analysis` section of the config dict
(`config.get("graphshift", {}).get("analysis", {})`). -/
structure AnalysisConfig where
  max_concurrent_repos : Option Nat
deriving DecidableEq, Repr

/-- The `graphshift` section of the config dict. -/
structure GraphshiftConfig where
  analysis : Option AnalysisConfig
deriving DecidableEq, Repr

/-- The config dict injected into `AnalysisService`. -/
structure Config where
  graphshift : Option GraphshiftConfig
deriving DecidableEq, Repr

/-- Model of `AnalysisService.__init__` lines 30-31:
`config.get("graphshift", {}).get("analysis", {}).get("max_concurrent_repos", 5)`. -/
def maxConcurrentRepos (config : Config) : Nat :=
  (((config.graphshift.bind (fun g => g.analysis)).bind
    (fun a => a.max_concurrent_repos)).getD 5)

/-! ## The scheduler as a labelled transition system

`_parallel_repo_analysis` spawns one cooperative task per repo item and
gates the body of each behind `asyncio.Semaphore(C)`.  We model the batch
as a state machine: each task is waiting (created, suspended on the
semaphore), running (permit held, adapter call in flight), or done with
its recorded result.  The adapter result of task `i` is a pure function of
`i` (the task's own item), which is faithful: each task reads only its own
item and the shared read-only parameters. -/

/-- The lifecycle state of one scheduler task. -/
inductive TaskState (F : Type)
  | waiting
  | running
  | done (result : Option (Outcome F))
deriving DecidableEq, Repr

/-- Returns `true` exactly on `running`. -/
def TaskState.isRunning {F : Type} : TaskState F → Bool
  | .running => true
  | _ => false

/-- Returns `true` exactly on `done _`. -/
def TaskState.isDone {F : Type} : TaskState F → Bool
  | .done _ => true
  | _ => false

/-- The joint state of a batch of `n` scheduler tasks. -/
structure SchedState (F : Type) (n : Nat) where
  tasks : Fin n → TaskState F

/-- Number of tasks currently holding a permit (adapter call in flight). -/
def runningCount {F : Type} {n : Nat} (s : SchedState F n) : Nat :=
  (Finset.univ.filter (fun i => (s.tasks i).isRunning = true)).card

/-- The state in which every task has been created but none scheduled. -/
def initState (F : Type) (n : Nat) : SchedState F n :=
  { tasks := fun _ => .waiting }

/-- Replace the state of task `i`. -/
def SchedState.update {F : Type} {n : Nat} (s : SchedState F n) (i : Fin n)
    (t : TaskState F) : SchedState F n :=
  { tasks := fun j => if j = i then t else s.tasks j }

/-- One scheduler transition under concurrency bound `C` and per-task
adapter results `adapter`: a waiting task may acquire a permit only while
fewer than `C` are held (`async with semaphore`), and a running task may
complete, releasing its permit and recording its own result — `some` on
adapter success, `none` when the task's `except` clause swallowed a
failure.  Completion never touches any sibling task. -/
inductive Step {F : Type} {n : Nat} (C : Nat) (adapter : Fin n → Option (Outcome F)) :
    SchedState F n → SchedState F n → Prop
  | start (s : SchedState F n) (i : Fin n) :
      s.tasks i = .waiting → runningCount s < C →
      Step C adapter s (s.update i .running)
  | finish (s : SchedState F n) (i : Fin n) :
      s.tasks i = .running →
      Step C adapter s (s.update i (.done (adapter i)))

/-- States the batch can reach from its initial state. -/
def Reachable {F : Type} {n : Nat} (C : Nat) (adapter : Fin n → Option (Outcome F))
    (s : SchedState F n) : Prop :=
  Relation.ReflTransGen (Step C adapter) (initState F n) s

/-- Returns `true` exactly on cleanup events. -/
def OrgEvent.isCleanup : OrgEvent → Bool
  | .cleanup _ => true
  | _ => false

/-- The ordering property the spec asserts for the Cleanup Coordinator:
every cleanup event comes strictly after every aggregation event. -/
def cleanupStrictlyAfterAggregate (evs : List OrgEvent) : Prop :=
  ∀ i j : Fin evs.length,
    (evs.get i).isCleanup = true → evs.get j = OrgEvent.aggregate → j < i

/-! ## Concrete run data used by the witnesses -/

/-- A two-task adapter assignment: task 0 fails, task 1 succeeds. -/
def exAdapter : Fin 2 → Option (Outcome Nat) :=
  fun i => if i = 0 then none else some { repository := "beta", findings := [7], total_issues := 1 }

/-- An engine that fails exactly on the directory of `repo3` and otherwise
reports two findings. -/
def exEngine : Engine Nat :=
  fun path _ _ => if path = "org/repo3" then none else some (.ofList [10, 20])

/-- Four qualifying children of a local organisation directory. -/
def exEntries : List DirEntry :=
  [{ name := "repo1", isDir := true, javaFileCount := 1 },
   { name := "repo2", isDir := true, javaFileCount := 2 },
   { name := "repo3", isDir := true, javaFileCount := 1 },
   { name := "repo4", isDir := true, javaFileCount := 3 }]

/-- The four repo items discovery derives from `exEntries` under an
organisation directory named `org`. -/
def exItems : List RepoItem :=
  [{ name := "repo1", path := "org/repo1" },
   { name := "repo2", path := "org/repo2" },
   { name := "repo3", path := "org/repo3" },
   { name := "repo4", path := "org/repo4" }]

/-- Children of an organisation directory of which three qualify, with a
hidden directory interleaved — used to exercise the `max_repos` cap. -/
def exManyEntries : List DirEntry :=
  [{ name := "alpha", isDir := true, javaFileCount := 2 },
   { name := ".cache", isDir := true, javaFileCount := 9 },
   { name := "beta", isDir := true, javaFileCount := 1 },
   { name := "gamma", isDir := true, javaFileCount := 4 }]

/-- Children of an organisation directory none of which qualifies: a hidden
git directory, a directory without Java files, and a plain file. -/
def exNoJavaEntries : List DirEntry :=
  [{ name := ".git", isDir := true, javaFileCount := 5 },
   { name := "docs", isDir := true, javaFileCount := 0 },
   { name := "README.md", isDir := false, javaFileCount := 0 }]

/-- A remote collaborator environment: five listed repositories, all
Java, of which `r4` and `r5` fail to clone. -/
def exRemote : RemoteEnv :=
  { listResult := some ["r1", "r2", "r3", "r4", "r5"]
    listError := none
    filterJava := fun rs => rs
    cloneMany := fun rs => rs.map (fun r =>
      { repo_name := r, local_path := "clones/" ++ r
        success := !(r == "r4") && !(r == "r5") }) }

/-- A remote environment whose listing comes back empty. -/
def exRemoteEmpty : RemoteEnv :=
  { listResult := some ["r1"], listError := none
    filterJava := fun _ => [], cloneMany := fun _ => [] }

/-- The outcomes the engine `exEngine` produces for `exItems`: `repo3`
fails, the other three succeed with two findings each. -/
def exOutcomes : List (Outcome Nat) :=
  [{ repository := "repo1", findings := [10, 20], total_issues := 2 },
   { repository := "repo2", findings := [10, 20], total_issues := 2 },
   { repository := "repo4", findings := [10, 20], total_issues := 2 }]

/-- The aggregate result of the concrete organisation batch over
`exItems`: four attempted, three successful. -/
def exOrgResult : OrgResult Nat :=
  { organization := "org"
    repositories := exOutcomes
    total_issues := 6
    repos_analyzed := 3
    cleanup_paths := none }

/-- Intermediate states of a concrete two-task batch run at concurrency 1:
task 0 starts. -/
def exState1 : SchedState Nat 2 := (initState Nat 2).update 0 .running

/-- Next, task 0 finishes (its adapter call failed). -/
def exState2 : SchedState Nat 2 := exState1.update 0 (.done (exAdapter 0))

/-- Next, task 1 starts. -/
def exState3 : SchedState Nat 2 := exState2.update 1 .running

/-- Finally, task 1 finishes: the batch is complete. -/
def exFinalState : SchedState Nat 2 := exState3.update 1 (.done (exAdapter 1))

/-! ## Scheduler machine lemmas -/

theorem runningCount_update_le {F : Type} {n : Nat} (s : SchedState F n) (i : Fin n)
    (t : TaskState F) : runningCount (s.update i t) ≤ runningCount s + 1 := by
  have hsub : (Finset.univ.filter (fun j => (((s.update i t).tasks j)).isRunning = true)) ⊆
      insert i (Finset.univ.filter (fun j => ((s.tasks j)).isRunning = true)) := by
    intro j hj
    simp only [Finset.mem_filter, Finset.mem_univ, true_and, SchedState.update] at hj
    by_cases hji : j = i
    · exact hji ▸ Finset.mem_insert_self j _
    · refine Finset.mem_insert_of_mem ?_
      simp only [Finset.mem_filter, Finset.mem_univ, true_and]
      simpa [hji] using hj
  calc runningCount (s.update i t)
      ≤ (insert i (Finset.univ.filter (fun j => ((s.tasks j)).isRunning = true))).card :=
        Finset.card_le_card hsub
    _ ≤ runningCount s + 1 := Finset.card_insert_le _ _

theorem runningCount_update_notRunning {F : Type} {n : Nat} (s : SchedState F n) (i : Fin n)
    (t : TaskState F) (ht : t.isRunning = false) :
    runningCount (s.update i t) ≤ runningCount s := by
  refine Finset.card_le_card ?_
  intro j hj
  simp only [Finset.mem_filter, Finset.mem_univ, true_and, SchedState.update] at hj
  by_cases hji : j = i
  · rw [if_pos hji] at hj
    rw [ht] at hj
    exact absurd hj (by simp)
  · rw [if_neg hji] at hj
    simp only [Finset.mem_filter, Finset.mem_univ, true_and]
    exact hj

theorem runningCount_init {F : Type} (n : Nat) : runningCount (initState F n) = 0 := by
  unfold runningCount
  rw [Finset.card_eq_zero, Finset.filter_eq_empty_iff]
  intro i _
  simp [initState, TaskState.isRunning]

/-- C1's invariant: reachable states never hold more than `C` permits. -/
theorem reachable_runningCount_le {F : Type} {n : Nat} {C : Nat}
    {adapter : Fin n → Option (Outcome F)} {s : SchedState F n}
    (hr : Reachable C adapter s) : runningCount s ≤ C := by
  induction hr with
  | refl => rw [runningCount_init]; exact Nat.zero_le C
  | tail _ hstep ih =>
    cases hstep with
    | start i hw hc =>
      exact le_trans (runningCount_update_le _ i .running) (by omega)
    | finish i hrun =>
      exact le_trans (runningCount_update_notRunning _ i _ rfl) ih

/-- In a reachable state, a finished task's recorded result is exactly its
own adapter result. -/
theorem reachable_done_eq {F : Type} {n : Nat} {C : Nat}
    {adapter : Fin n → Option (Outcome F)} {s : SchedState F n}
    (hr : Reachable C adapter s) :
    ∀ (i : Fin n) (r : Option (Outcome F)), s.tasks i = .done r → r = adapter i := by
  induction hr with
  | refl =>
    intro i r h
    exact absurd h (by simp [initState])
  | tail _ hstep ih =>
    cases hstep with
    | start k hw hc =>
      intro i r h
      simp only [SchedState.update] at h
      by_cases hik : i = k
      · rw [if_pos hik] at h
        exact absurd h (by simp)
      · rw [if_neg hik] at h
        exact ih i r h
    | finish k hrun =>
      intro i r h
      simp only [SchedState.update] at h
      by_cases hik : i = k
      · rw [if_pos hik] at h
        injection h with h'
        rw [← h', hik]
      · rw [if_neg hik] at h
        exact ih i r h

/-- A state in which every task is done admits no further scheduler step. -/
theorem no_step_of_all_done {F : Type} {n : Nat} {C : Nat}
    {adapter : Fin n → Option (Outcome F)} {s : SchedState F n}
    (h : ∀ i, ∃ r, s.tasks i = .done r) :
    ∀ s', ¬ Step C adapter s s' := by
  intro s' hstep
  cases hstep with
  | start i hw hc =>
    obtain ⟨r, hr⟩ := h i
    rw [hr] at hw
    exact TaskState.noConfusion hw
  | finish i hrun =>
    obtain ⟨r, hr⟩ := h i
    rw [hr] at hrun
    exact TaskState.noConfusion hrun

/-! ## Claim theorems -/

/-- C1: for every concurrency bound `C = maxConcurrentRepos config ≥ 1`
and every batch size `n`, no reachable scheduler state has more than `C`
adapter invocations in flight; and `C` defaults to `5` when the config
does not set it. -/
theorem semaphore_bounds_inflight {F : Type} (n : Nat) (config : Config)
    (adapter : Fin n → Option (Outcome F))
    (hC : 1 ≤ maxConcurrentRepos config)
    (s : SchedState F n)
    (hreach : Reachable (maxConcurrentRepos config) adapter s) :
    runningCount s ≤ maxConcurrentRepos config ∧
      maxConcurrentRepos { graphshift := none } = 5 :=
  ⟨reachable_runningCount_le hreach, rfl⟩

theorem semaphore_bounds_inflight_witness :
    runningCount exState1 ≤ maxConcurrentRepos { graphshift := none } ∧
      maxConcurrentRepos { graphshift := none } = 5 :=
  semaphore_bounds_inflight 2 { graphshift := none } exAdapter (by decide) exState1
    (Relation.ReflTransGen.single
      (Step.start (initState Nat 2) 0 rfl (by rw [runningCount_init]; decide)))

/-- C4: once the scheduler can take no further step (the `gather` join has
completed), every one of the `n` submitted items is in a terminal state
carrying exactly its own adapter result — a failed adapter call is
recorded as `none` at that item's position only, siblings keep their own
results, no item is dropped or double-counted. -/
theorem scheduler_join_all_terminal {F : Type} {n : Nat} (C : Nat)
    (adapter : Fin n → Option (Outcome F)) (hC : 1 ≤ C) (s : SchedState F n)
    (hreach : Reachable C adapter s)
    (hfinal : ∀ s', ¬ Step C adapter s s') :
    ∀ i, s.tasks i = .done (adapter i) := by
  have hnorun : ∀ i, s.tasks i ≠ .running := fun i h => hfinal _ (Step.finish s i h)
  have hzero : runningCount s = 0 := by
    unfold runningCount
    rw [Finset.card_eq_zero, Finset.filter_eq_empty_iff]
    intro i _
    cases h : s.tasks i with
    | waiting => simp [TaskState.isRunning]
    | running => exact absurd h (hnorun i)
    | done r => simp [TaskState.isRunning]
  have hnowait : ∀ i, s.tasks i ≠ .waiting := fun i h =>
    hfinal _ (Step.start s i h (by omega))
  intro i
  cases h : s.tasks i with
  | waiting => exact absurd h (hnowait i)
  | running => exact absurd h (hnorun i)
  | done r => rw [reachable_done_eq hreach i r h]

theorem scheduler_join_all_terminal_witness :
    exFinalState.tasks 0 = .done (exAdapter 0) ∧
      exFinalState.tasks 1 = .done (exAdapter 1) := by
  have h1 : Step 1 exAdapter (initState Nat 2) exState1 :=
    Step.start (initState Nat 2) 0 rfl (by rw [runningCount_init]; decide)
  have h2 : Step 1 exAdapter exState1 exState2 :=
    Step.finish exState1 0 (by decide)
  have h3 : Step 1 exAdapter exState2 exState3 :=
    Step.start exState2 1 (by decide) (by decide)
  have h4 : Step 1 exAdapter exState3 exFinalState :=
    Step.finish exState3 1 (by decide)
  have hreach : Reachable 1 exAdapter exFinalState :=
    Relation.ReflTransGen.tail (Relation.ReflTransGen.tail
      (Relation.ReflTransGen.tail (Relation.ReflTransGen.single h1) h2) h3) h4
  have hall := scheduler_join_all_terminal 1 exAdapter (by decide) exFinalState hreach
    (no_step_of_all_done (fun i => ⟨exAdapter i, by fin_cases i <;> decide⟩))
  exact ⟨hall 0, hall 1⟩

/-! ## List lemmas about the gather-then-filter shape -/

theorem length_filterMap_id_eq_countP {α : Type} (l : List (Option α)) :
    (l.filterMap id).length = l.countP (fun o => o.isSome) := by
  induction l with
  | nil => rfl
  | cons o t ih =>
    cases o <;> simp [List.filterMap_cons, List.countP_cons, ih]

theorem filterMap_id_map_some_sublist {α : Type} (l : List (Option α)) :
    ((l.filterMap id).map some).Sublist l := by
  induction l with
  | nil => simp
  | cons o t ih =>
    cases o with
    | none => simpa [List.filterMap_cons] using List.Sublist.cons none ih
    | some a => simpa [List.filterMap_cons] using List.Sublist.cons₂ (some a) ih

/-- Inversion of the shared tail of `_analyze_organization`: a successful
aggregate pins down every field of the result. -/
theorem orgRunTail_ok_iff {F : Type} (engine : Engine F)
    (org to_version scope : String) (is_local keep_clones : Bool)
    (items : List RepoItem) (cps : Option (List String)) (r : OrgResult F) :
    (orgRunTail engine org to_version scope is_local keep_clones items cps).1 = .ok r ↔
      items.isEmpty = false ∧
      r = { organization := org
            repositories := parallelRepoAnalysis engine to_version scope items
            total_issues := ((parallelRepoAnalysis engine to_version scope items).map
              (fun o => o.findings.length)).sum
            repos_analyzed := (parallelRepoAnalysis engine to_version scope items).length
            cleanup_paths := cps } := by
  unfold orgRunTail
  by_cases h : items.isEmpty
  · rw [if_pos h]
    constructor
    · intro hc
      exact absurd hc (by simp)
    · intro hrc
      rw [h] at hrc
      exact absurd hrc.1 (by simp)
  · rw [if_neg h]
    constructor
    · intro hc
      exact ⟨by simpa using h, (Except.ok.inj hc).symm⟩
    · intro hrc
      rw [hrc.2]

/-- A successful task result is a `_base_repo_analyzer` outcome, whose
finding count is the length of its findings list. -/
theorem analyzeSingleItem_eq_some {F : Type} (engine : Engine F)
    (to_version scope : String) (item : RepoItem) (o : Outcome F)
    (h : analyzeSingleItem engine to_version scope item = some o) :
    o.total_issues = o.findings.length := by
  unfold analyzeSingleItem baseRepoAnalyzer at h
  split at h
  · exact absurd h (by simp [Except.toOption])
  · split at h
    · simp only [Except.toOption, Option.some.injEq] at h
      rw [← h]
    · exact absurd h (by simp [Except.toOption])

/-- Every outcome the scheduler hands to the aggregator was built by
`_base_repo_analyzer`, whose finding count is the length of its findings
list. -/
theorem total_issues_of_mem_parallel {F : Type} (engine : Engine F)
    (to_version scope : String) (items : List RepoItem) (o : Outcome F)
    (ho : o ∈ parallelRepoAnalysis engine to_version scope items) :
    o.total_issues = o.findings.length := by
  unfold parallelRepoAnalysis filterSuccessful at ho
  rw [List.filterMap_map] at ho
  obtain ⟨item, hitem, heq⟩ := List.mem_filterMap.mp ho
  refine analyzeSingleItem_eq_some engine to_version scope item o ?_
  simpa [Function.comp] using heq

/-- C5: when an organisation run over `items` succeeds, the reported
`repos_analyzed` is the length of the outcome list, equals the number of
items whose adapter call succeeded (failed items are excluded, not
zero-filled), and never exceeds the number of submitted items. -/
theorem repos_analyzed_counts_successes {F : Type} (engine : Engine F)
    (org to_version scope : String) (is_local keep_clones : Bool)
    (items : List RepoItem) (cps : Option (List String)) (r : OrgResult F)
    (h : (orgRunTail engine org to_version scope is_local keep_clones items cps).1 = .ok r) :
    r.repos_analyzed = r.repositories.length ∧
    r.repos_analyzed =
      (items.map (analyzeSingleItem engine to_version scope)).countP (fun o => o.isSome) ∧
    r.repos_analyzed ≤ items.length := by
  obtain ⟨-, hr⟩ := (orgRunTail_ok_iff engine org to_version scope is_local keep_clones
    items cps r).mp h
  subst hr
  refine ⟨rfl, ?_, ?_⟩
  · exact length_filterMap_id_eq_countP (items.map (analyzeSingleItem engine to_version scope))
  · calc (parallelRepoAnalysis engine to_version scope items).length
        ≤ (items.map (analyzeSingleItem engine to_version scope)).length :=
          List.length_filterMap_le _ _
      _ = items.length := List.length_map _ _

theorem repos_analyzed_counts_successes_witness :
    (exOrgResult.repos_analyzed = exOrgResult.repositories.length ∧
      exOrgResult.repos_analyzed =
        (exItems.map (analyzeSingleItem exEngine "21" "all-deprecations")).countP
          (fun o => o.isSome) ∧
      exOrgResult.repos_analyzed ≤ exItems.length) ∧
    exOrgResult.repos_analyzed = 3 ∧
    exItems.length = 4 ∧
    ("repo3" ∉ exOrgResult.repositories.map (fun o => o.repository)) :=
  ⟨repos_analyzed_counts_successes exEngine "org" "21" "all-deprecations" true true
      exItems none exOrgResult (by rfl),
   by decide, by decide, by decide⟩

/-- C6: when an organisation run succeeds, the reported `total_issues` is
the sum of the finding counts over the successful outcomes only, and every
successful outcome's finding count equals the length of its findings
list. -/
theorem total_issues_sums_successful {F : Type} (engine : Engine F)
    (org to_version scope : String) (is_local keep_clones : Bool)
    (items : List RepoItem) (cps : Option (List String)) (r : OrgResult F)
    (h : (orgRunTail engine org to_version scope is_local keep_clones items cps).1 = .ok r) :
    r.total_issues = (r.repositories.map (fun o => o.findings.length)).sum ∧
    ∀ o ∈ r.repositories, o.total_issues = o.findings.length := by
  obtain ⟨-, hr⟩ := (orgRunTail_ok_iff engine org to_version scope is_local keep_clones
    items cps r).mp h
  subst hr
  exact ⟨rfl, fun o ho => total_issues_of_mem_parallel engine to_version scope items o ho⟩

theorem total_issues_sums_successful_witness :
    (exOrgResult.total_issues =
      (exOrgResult.repositories.map (fun o => o.findings.length)).sum ∧
      ∀ o ∈ exOrgResult.repositories, o.total_issues = o.findings.length) ∧
    exOrgResult.total_issues = 6 :=
  ⟨total_issues_sums_successful exEngine "org" "21" "all-deprecations" true true
      exItems none exOrgResult (by rfl),
   by decide⟩

/-- C10: when an organisation run succeeds, its outcome list is exactly
the successful adapter results of the submitted items in submission order
(`asyncio.gather` collects in submission order and the success filter
preserves relative order): the outcome list, viewed through `some`, is a
sublist of the per-item result list. -/
theorem outcomes_preserve_input_order {F : Type} (engine : Engine F)
    (org to_version scope : String) (is_local keep_clones : Bool)
    (items : List RepoItem) (cps : Option (List String)) (r : OrgResult F)
    (h : (orgRunTail engine org to_version scope is_local keep_clones items cps).1 = .ok r) :
    r.repositories = items.filterMap (analyzeSingleItem engine to_version scope) ∧
    (r.repositories.map some).Sublist
      (items.map (analyzeSingleItem engine to_version scope)) := by
  obtain ⟨-, hr⟩ := (orgRunTail_ok_iff engine org to_version scope is_local keep_clones
    items cps r).mp h
  subst hr
  constructor
  · show parallelRepoAnalysis engine to_version scope items = _
    unfold parallelRepoAnalysis filterSuccessful
    rw [List.filterMap_map]
    rfl
  · exact filterMap_id_map_some_sublist (items.map (analyzeSingleItem engine to_version scope))

theorem outcomes_preserve_input_order_witness :
    (exOrgResult.repositories =
      exItems.filterMap (analyzeSingleItem exEngine "21" "all-deprecations") ∧
      (exOrgResult.repositories.map some).Sublist
        (exItems.map (analyzeSingleItem exEngine "21" "all-deprecations"))) ∧
    exOrgResult.repositories.map (fun o => o.repository) = ["repo1", "repo2", "repo4"] :=
  ⟨outcomes_preserve_input_order exEngine "org" "21" "all-deprecations" true true
      exItems none exOrgResult (by rfl),
   by decide⟩

/-- The event trace of the shared organisation-run tail, by cases. -/
theorem orgRunTail_events {F : Type} (engine : Engine F)
    (org to_version scope : String) (is_local keep_clones : Bool)
    (items : List RepoItem) (cps : Option (List String)) :
    (orgRunTail engine org to_version scope is_local keep_clones items cps).2 =
      if items.isEmpty then []
      else [OrgEvent.schedule items] ++
        (if !is_local && !keep_clones then [OrgEvent.cleanup items] else []) ++
        [OrgEvent.aggregate] := by
  unfold orgRunTail
  by_cases h : items.isEmpty
  · rw [if_pos h, if_pos h]
  · rw [if_neg h, if_neg h]

/-- The remote discovery-and-clone step succeeds exactly when the listing
is error-free and non-empty and the capped Java filter is non-empty, and
then returns the successful clones. -/
theorem discoverAndClone_ok (remote : RemoteEnv) (org_name : String)
    (max_repos : Nat) (repos : List String)
    (hres : remote.listResult = some repos) (herr : remote.listError = none)
    (hne : repos.isEmpty = false)
    (hjava : ((remote.filterJava repos).take max_repos).isEmpty = false) :
    discoverAndCloneRemoteRepos remote org_name max_repos =
      .ok ((remote.cloneMany ((remote.filterJava repos).take max_repos)).filter
        (fun c => c.success)) := by
  unfold discoverAndCloneRemoteRepos
  rw [hres, herr]
  simp only [Option.isSome_none, Option.getD_some, Bool.false_or, hne, Bool.false_eq_true,
    if_false, hjava]

/-- C3 (amended): in a remote organisation run with retention declined,
the Cleanup Coordinator is invoked strictly after the Analysis Scheduler
has joined — never concurrently with analysis — though strictly *before*
aggregation, and it receives exactly the subset of items reported as
successfully cloned; no cleanup event ever occurs in a local run, nor in a
remote run where retention was requested. -/
theorem cleanup_after_join_with_cloned_subset {F : Type} (engine : Engine F)
    (remote : RemoteEnv) (localEntries : List DirEntry)
    (org to_version scope : String) (max_repos : Nat) :
    (∀ repos, remote.listResult = some repos → remote.listError = none →
      repos.isEmpty = false →
      ((remote.filterJava repos).take max_repos).isEmpty = false →
      ∀ cs, cs = (remote.cloneMany ((remote.filterJava repos).take max_repos)).filter
        (fun c => c.success) →
      (cs.map cloneToItem).isEmpty = false →
      (analyzeOrganization engine remote false localEntries org to_version scope
          max_repos false).2 =
        [OrgEvent.schedule (cs.map cloneToItem), OrgEvent.cleanup (cs.map cloneToItem),
         OrgEvent.aggregate] ∧
      ∀ c ∈ cs, c.success = true) ∧
    (∀ keep_clones : Bool, ∀ its, OrgEvent.cleanup its ∉
      (analyzeOrganization engine remote true localEntries org to_version scope
        max_repos keep_clones).2) ∧
    (∀ its, OrgEvent.cleanup its ∉
      (analyzeOrganization engine remote false localEntries org to_version scope
        max_repos true).2) := by
  refine ⟨?_, ?_, ?_⟩
  · intro repos hres herr hne hjava cs hcs hcsne
    constructor
    · unfold analyzeOrganization
      rw [if_neg (by simp), discoverAndClone_ok remote org max_repos repos hres herr hne hjava,
        ← hcs]
      simp only [orgRunTail_events, hcsne, Bool.not_false, Bool.and_self, if_true,
        Bool.false_eq_true, if_false]
      rfl
    · intro c hc
      rw [hcs] at hc
      exact List.of_mem_filter hc
  · intro keep_clones its
    unfold analyzeOrganization
    rw [if_pos rfl]
    rw [orgRunTail_events]
    by_cases h : ((discoverLocalRepos localEntries max_repos).map
        (fun e => { name := e.name, path := org ++ "/" ++ e.name : RepoItem })).isEmpty
    · rw [if_pos h]
      exact List.not_mem_nil _
    · rw [if_neg h]
      simp
  · intro its
    unfold analyzeOrganization
    rw [if_neg (by simp)]
    cases hdc : discoverAndCloneRemoteRepos remote org max_repos with
    | error e => exact List.not_mem_nil _
    | ok cs =>
      rw [orgRunTail_events]
      by_cases h : ((cs.map cloneToItem)).isEmpty
      · rw [if_pos h]
        exact List.not_mem_nil _
      · rw [if_neg h]
        simp

theorem cleanup_after_join_witness :
    ((analyzeOrganization exEngine exRemote false [] "acme" "21" "all-deprecations"
        50 false).2 =
      [OrgEvent.schedule (((exRemote.cloneMany ((exRemote.filterJava
          ["r1", "r2", "r3", "r4", "r5"]).take 50)).filter (fun c => c.success)).map
          cloneToItem),
       OrgEvent.cleanup (((exRemote.cloneMany ((exRemote.filterJava
          ["r1", "r2", "r3", "r4", "r5"]).take 50)).filter (fun c => c.success)).map
          cloneToItem),
       OrgEvent.aggregate] ∧
      ∀ c ∈ (exRemote.cloneMany ((exRemote.filterJava
          ["r1", "r2", "r3", "r4", "r5"]).take 50)).filter (fun c => c.success),
        c.success = true) ∧
    ((exRemote.cloneMany ((exRemote.filterJava ["r1", "r2", "r3", "r4", "r5"]).take
        50)).filter (fun c => c.success)).map (fun c => c.repo_name) =
      ["r1", "r2", "r3"] :=
  ⟨(cleanup_after_join_with_cloned_subset exEngine exRemote [] "acme" "21"
      "all-deprecations" 50).1 ["r1", "r2", "r3", "r4", "r5"] rfl rfl (by decide)
      (by decide) _ rfl (by decide),
   by decide⟩

/-- C3 as stated is false of the code: in a remote run with retention
declined, `_analyze_organization` awaits `_cleanup_cloned_repos` at lines
173-174 *before* computing the aggregate at lines 177-186, so the cleanup
event precedes the aggregation event. -/
theorem cleanup_not_after_aggregator :
    ¬ cleanupStrictlyAfterAggregate
      ((analyzeOrganization exEngine exRemote false [] "acme" "21" "all-deprecations"
        50 false).2) := by
  unfold cleanupStrictlyAfterAggregate
  decide

/-- C7: a run that discovers zero qualifying repo items raises before any
scheduling occurs: the organisation call returns the error with an empty
event trace (no `schedule` event), and `run_analysis` surfaces it to the
caller as the Failure value `none`. -/
theorem zero_discovery_is_hard_failure {F : Type} (engine : Engine F)
    (remote : RemoteEnv) (pathExists : String → Bool) (baseName : String → String)
    (cloneSingle : String → Option String) (entries : List DirEntry)
    (org to_version scope : String) (max_repos : Nat) (keep_clones : Bool) :
    (discoverLocalRepos entries max_repos = [] →
      (analyzeOrganization engine remote true entries org to_version scope
          max_repos keep_clones).1 =
        .error ("No Java repositories found in " ++ org) ∧
      (analyzeOrganization engine remote true entries org to_version scope
          max_repos keep_clones).2 = [] ∧
      run_analysis engine remote pathExists baseName cloneSingle true entries
        none (some org) to_version scope max_repos keep_clones = none) ∧
    (((remote.filterJava (remote.listResult.getD [])).take max_repos).isEmpty = true →
      (∃ e, (analyzeOrganization engine remote false entries org to_version scope
          max_repos keep_clones).1 = .error e) ∧
      (analyzeOrganization engine remote false entries org to_version scope
          max_repos keep_clones).2 = [] ∧
      run_analysis engine remote pathExists baseName cloneSingle false entries
        none (some org) to_version scope max_repos keep_clones = none) := by
  constructor
  · intro hempty
    have h1 : (analyzeOrganization engine remote true entries org to_version scope
        max_repos keep_clones) =
        (.error ("No Java repositories found in " ++ org), []) := by
      unfold analyzeOrganization
      rw [if_pos rfl, hempty]
      rfl
    refine ⟨by rw [h1], by rw [h1], ?_⟩
    simp [run_analysis, runAnalysisDispatch, h1, Except.map]
  · intro hjava
    have herr : ∃ e, discoverAndCloneRemoteRepos remote org max_repos = .error e := by
      unfold discoverAndCloneRemoteRepos
      by_cases h : remote.listError.isSome || (remote.listResult.getD []).isEmpty
      · rw [if_pos h]
        exact ⟨_, rfl⟩
      · rw [if_neg h, if_pos hjava]
        exact ⟨_, rfl⟩
    obtain ⟨e, he⟩ := herr
    have h1 : (analyzeOrganization engine remote false entries org to_version scope
        max_repos keep_clones) = (.error e, []) := by
      unfold analyzeOrganization
      rw [if_neg (by simp), he]
    refine ⟨⟨e, by rw [h1]⟩, by rw [h1], ?_⟩
    simp [run_analysis, runAnalysisDispatch, h1, Except.map]

theorem zero_discovery_is_hard_failure_witness :
    (discoverLocalRepos exNoJavaEntries 50 = []) ∧
    ((analyzeOrganization exEngine exRemoteEmpty true exNoJavaEntries "org" "21"
        "all-deprecations" 50 true).1 =
      .error ("No Java repositories found in " ++ "org") ∧
    (analyzeOrganization exEngine exRemoteEmpty true exNoJavaEntries "org" "21"
        "all-deprecations" 50 true).2 = [] ∧
    run_analysis exEngine exRemoteEmpty (fun _ => true) (fun s => s) (fun _ => none)
      true exNoJavaEntries none (some "org") "21" "all-deprecations" 50 true = none) :=
  ⟨by decide,
   (zero_discovery_is_hard_failure exEngine exRemoteEmpty (fun _ => true) (fun s => s)
      (fun _ => none) exNoJavaEntries "org" "21" "all-deprecations" 50 true).1
     (by decide)⟩

/-- Unrolling of the `_discover_local_repos` loop: while fewer than
`max_repos` items have been collected, the loop returns the collected
prefix followed by the next `max_repos - collected` qualifying entries in
iteration order. -/
theorem discoverLoop_eq (entries : List DirEntry) (max_repos : Nat) :
    ∀ acc : List DirEntry, acc.length < max_repos →
      discoverLoop entries max_repos acc =
        acc ++ (entries.filter qualifies).take (max_repos - acc.length) := by
  induction entries with
  | nil => intro acc _; simp [discoverLoop]
  | cons e rest ih =>
    intro acc hacc
    unfold discoverLoop
    by_cases hq : qualifies e
    · rw [if_pos hq]
      obtain ⟨k, hk⟩ : ∃ k, max_repos - acc.length = k + 1 :=
        ⟨max_repos - acc.length - 1, by omega⟩
      rw [List.filter_cons_of_pos hq, hk, List.take_succ_cons]
      by_cases hb : max_repos ≤ (acc ++ [e]).length
      · rw [if_pos hb]
        have hlen : (acc ++ [e]).length = acc.length + 1 := by
          rw [List.length_append, List.length_singleton]
        have hk0 : k = 0 := by omega
        rw [hk0, List.take_zero]
      · rw [if_neg hb]
        have hlt : (acc ++ [e]).length < max_repos := by omega
        rw [ih (acc ++ [e]) hlt]
        have : max_repos - (acc ++ [e]).length = k := by
          rw [List.length_append, List.length_singleton]; omega
        rw [this, List.append_assoc, List.singleton_append]
    · rw [if_neg hq, List.filter_cons_of_neg hq]
      exact ih acc hacc

/-- C8: with `max_repos ≥ 1`, local discovery returns exactly the first
`max_repos` qualifying children in iteration order (hence at most
`max_repos` items, stopping as soon as that many are found); every
returned item is a non-hidden immediate child directory containing at
least one Java source file; and the remote path caps its filtered Java
list at `max_repos` before cloning. -/
theorem discovery_caps_at_max_repos (entries : List DirEntry) (max_repos : Nat)
    (h : 1 ≤ max_repos) :
    discoverLocalRepos entries max_repos = (entries.filter qualifies).take max_repos ∧
    (discoverLocalRepos entries max_repos).length ≤ max_repos ∧
    (∀ e ∈ discoverLocalRepos entries max_repos,
      e.isDir = true ∧ strStartsWith e.name "." = false ∧ 0 < e.javaFileCount) ∧
    (∀ (remote : RemoteEnv) (org : String) (cs : List CloneResult),
      discoverAndCloneRemoteRepos remote org max_repos = .ok cs →
      cs = (remote.cloneMany ((remote.filterJava (remote.listResult.getD [])).take
        max_repos)).filter (fun c => c.success) ∧
      ((remote.filterJava (remote.listResult.getD [])).take max_repos).length ≤
        max_repos) := by
  have hmain : discoverLocalRepos entries max_repos =
      (entries.filter qualifies).take max_repos := by
    unfold discoverLocalRepos
    rw [discoverLoop_eq entries max_repos [] (by simpa using h)]
    simp
  refine ⟨hmain, ?_, ?_, ?_⟩
  · rw [hmain]
    exact le_trans (List.length_take_le _ _) le_rfl
  · intro e he
    rw [hmain] at he
    have hq : qualifies e = true :=
      List.of_mem_filter (List.mem_of_mem_take he)
    unfold qualifies at hq
    simp only [Bool.and_eq_true, Bool.not_eq_true', decide_eq_true_eq] at hq
    exact ⟨hq.1.1, hq.1.2, hq.2⟩
  · intro remote org cs hok
    unfold discoverAndCloneRemoteRepos at hok
    by_cases h1 : remote.listError.isSome || (remote.listResult.getD []).isEmpty
    · rw [if_pos h1] at hok
      exact absurd hok (by simp)
    · rw [if_neg h1] at hok
      by_cases h2 : ((remote.filterJava (remote.listResult.getD [])).take
          max_repos).isEmpty
      · rw [if_pos h2] at hok
        exact absurd hok (by simp)
      · rw [if_neg h2] at hok
        exact ⟨(Except.ok.inj hok).symm, List.length_take_le _ _⟩

theorem discovery_caps_at_max_repos_witness :
    (1 ≤ 2) ∧
    (discoverLocalRepos exManyEntries 2 =
      (exManyEntries.filter qualifies).take 2 ∧
    (discoverLocalRepos exManyEntries 2).length ≤ 2 ∧
    (∀ e ∈ discoverLocalRepos exManyEntries 2,
      e.isDir = true ∧ strStartsWith e.name "." = false ∧ 0 < e.javaFileCount) ∧
    (∀ (remote : RemoteEnv) (org : String) (cs : List CloneResult),
      discoverAndCloneRemoteRepos remote org 2 = .ok cs →
      cs = (remote.cloneMany ((remote.filterJava (remote.listResult.getD [])).take
        2)).filter (fun c => c.success) ∧
      ((remote.filterJava (remote.listResult.getD [])).take 2).length ≤ 2)) ∧
    (discoverLocalRepos exManyEntries 2).map (fun e => e.name) = ["alpha", "beta"] :=
  ⟨by decide, discovery_caps_at_max_repos exManyEntries 2 (by decide), by decide⟩

/-- C9: `run_analysis` never propagates an exception: calling it with
neither a `repo_path` nor an `org_name` (the internal `ValueError`), any
internal dispatch failure, and in particular a failed clone of a remote
single repository, all surface as the Failure value `none`. -/
theorem run_analysis_never_raises {F : Type} (engine : Engine F) (remote : RemoteEnv)
    (pathExists : String → Bool) (baseName : String → String)
    (cloneSingle : String → Option String) (is_local_org : Bool)
    (entries : List DirEntry) (to_version scope : String) (max_repos : Nat)
    (keep_clones : Bool) :
    run_analysis engine remote pathExists baseName cloneSingle is_local_org entries
      none none to_version scope max_repos keep_clones = none ∧
    (∀ (repo_path org_name : Option String) (e : String),
      runAnalysisDispatch engine remote pathExists baseName cloneSingle is_local_org
        entries repo_path org_name to_version scope max_repos keep_clones = .error e →
      run_analysis engine remote pathExists baseName cloneSingle is_local_org entries
        repo_path org_name to_version scope max_repos keep_clones = none) ∧
    (∀ (rp : String) (org_name : Option String),
      isLocalPath pathExists rp = false → cloneSingle rp = none →
      run_analysis engine remote pathExists baseName cloneSingle is_local_org entries
        (some rp) org_name to_version scope max_repos keep_clones = none) := by
  refine ⟨rfl, ?_, ?_⟩
  · intro repo_path org_name e he
    unfold run_analysis
    rw [he]
  · intro rp org_name hlocal hclone
    simp only [run_analysis, runAnalysisDispatch, analyzeSingleRepo, hlocal, hclone,
      Bool.false_eq_true, if_false, Except.map]

theorem run_analysis_never_raises_witness :
    run_analysis (F := Nat) exEngine exRemote (fun _ => false) (fun s => s)
      (fun _ => none) true [] none none "21" "all-deprecations" 50 true = none ∧
    run_analysis (F := Nat) exEngine exRemote (fun _ => false) (fun s => s)
      (fun _ => none) true [] (some "git@host:repo.git") none "21" "all-deprecations"
      50 true = none :=
  ⟨(run_analysis_never_raises exEngine exRemote (fun _ => false) (fun s => s)
      (fun _ => none) true [] "21" "all-deprecations" 50 true).1,
   (run_analysis_never_raises exEngine exRemote (fun _ => false) (fun s => s)
      (fun _ => none) true [] "21" "all-deprecations" 50 true).2.2
     "git@host:repo.git" none (by decide) rfl⟩

/-- C2 is false of the code: the analyzer output artifact path is computed
from the target version and scope alone (`base_analyzer.py` line 78), so
two distinct repositories analysed with the same version and scope share
one output path `oss/outputs/temp_analysis_21_all-deprecations.json` —
concurrent tasks read, write and unlink the same file. -/
theorem output_artifact_paths_collide :
    analyzerOutputPath "/repos/alpha" "21" "all-deprecations" =
      analyzerOutputPath "/repos/beta" "21" "all-deprecations" ∧
    ("/repos/alpha" : String) ≠ "/repos/beta" ∧
    analyzerOutputPath "/repos/alpha" "21" "all-deprecations" =
      "oss/outputs/temp_analysis_21_all-deprecations.json" :=
  ⟨rfl, by decide, rfl⟩

end Discovery
